import Mathlib

/-!
Verification of the identity-lifecycle core of `indy-cli-rs`.

The development shallowly embeds the Identity Manager (`src/cli/src/tools/did/mod.rs`),
the Key Manager (`src/cli/src/tools/did/key.rs`) and the Backup Engine copy loop
(`src/cli/src/tools/wallet/mod.rs`) over an explicit store state.  The encrypted
store itself (aries-askar) is an external collaborator; its record/key sessions are
modelled after the store contract of the specification (section 6) and the error
taxonomy of section 7.
-/

namespace IndyCli

/-- The typed error taxonomy of `CliError` (section 7): `NotFound`, `Duplicate`,
`InvalidInput`, `InvalidEntityState`, plus an opaque wrapped error for underlying
store/crypto failures. -/
inductive CliError where
  | notFound (msg : String)
  | duplicate (msg : String)
  | invalidInput (msg : String)
  | invalidEntityState (msg : String)
  | other (msg : String)
deriving DecidableEq

instance {ε α : Type} [DecidableEq ε] [DecidableEq α] : DecidableEq (Except ε α) := by
  intro a b
  cases a <;> cases b
  case error.error e e' =>
    exact if h : e = e' then .isTrue (by rw [h]) else .isFalse (by simp [h])
  case error.ok e a => exact .isFalse (by simp)
  case ok.error a e => exact .isFalse (by simp)
  case ok.ok a a' =>
    exact if h : a = a' then .isTrue (by rw [h]) else .isFalse (by simp [h])

/-- The JSON body of a persisted DID record (`DidInfo` in `tools/did/mod.rs:26-34`).
The serde round-trip through JSON bytes is modelled as the identity, so `value` holds
the record itself. -/
structure DidInfo where
  did : String
  verkey : String
  verkey_type : String
  method : Option String
  metadata : Option String
  next_verkey : Option String
deriving DecidableEq

/-- A store-level tag (`EntryTag::Encrypted(name, value)`): an indexed attribute
separate from the JSON body. -/
abbrev EntryTag := String × String

/-- A record entry of the DID category (`aries_askar::Entry` restricted to the
fields the embedded code reads: name, deserialized value, tags). -/
structure Entry where
  name : String
  value : DidInfo
  tags : List EntryTag
deriving DecidableEq

/-- The store state visible to this core: the DID-category records and the set of
private-key names (verkeys) held in custody.  Private key material never leaves the
store (section 3), so keys are tracked by their verkey handle only. -/
structure Store where
  dids : List Entry
  keys : List String
deriving DecidableEq

/-- Exact-name lookup in the DID category
(`Session.fetch(category, name, forUpdate)` of the section 6 store contract;
`Wallet::fetch_record` as used by `Did::fetch_record`, `tools/did/mod.rs:245-258`). -/
def Store.fetch_record (st : Store) (name : String) : Option Entry :=
  st.dids.find? (fun e => e.name == name)

/-- Replace every entry stored under `name` with the given value and tags, keeping
every other entry. -/
def replaceEntry (l : List Entry) (name : String) (v : DidInfo) (tags : List EntryTag) :
    List Entry :=
  match l with
  | [] => []
  | e :: rest =>
    if e.name == name then ⟨name, v, tags⟩ :: replaceEntry rest name v tags
    else e :: replaceEntry rest name v tags

/-- Modelled from the spec: `Wallet::store_record(category, name, value, tags, new)`
is not under `src/`; per the store contract (section 6) `Session.insert` on an
existing name fails and such an id collision surfaces as `Duplicate` (section 7),
while `new = false` replaces the record previously fetched for update (failing
`NotFound` when no such record exists). -/
def Store.store_record (st : Store) (name : String) (v : DidInfo) (tags : List EntryTag)
    (new : Bool) : Except CliError Store :=
  match st.fetch_record name with
  | some _ =>
    if new then
      Except.error (CliError.duplicate "Duplicate record")
    else
      Except.ok { st with dids := replaceEntry st.dids name v tags }
  | none =>
    if new then
      Except.ok { st with dids := st.dids ++ [⟨name, v, tags⟩] }
    else
      Except.error (CliError.notFound "Record not found")

/-- Modelled from the spec: `Wallet::remove_record` (not under `src/`) is
`Session.removeRecord(category, name)` of the section 6 contract; removing an
absent record fails `NotFound`. -/
def Store.remove_record (st : Store) (name : String) : Except CliError Store :=
  match st.fetch_record name with
  | some _ => Except.ok { st with dids := st.dids.filter (fun e => e.name != name) }
  | none => Except.error (CliError.notFound "Record not found")

/-- Modelled from the spec: `Session.insertKey(name, keyMaterial, metadata?)` of the
section 6 contract persists private key material under its verkey as the store id.
Keys are content-addressed by verkey (the material is determined by the keypair the
verkey encodes), so re-inserting an already-held verkey leaves the custody set
unchanged; the section 7 taxonomy reserves `Duplicate` for DID and wallet ids. -/
def Store.insert_key (st : Store) (verkey : String) : Store :=
  if st.keys.contains verkey then st else { st with keys := st.keys ++ [verkey] }

/-- `KEY_TYPE` lives in `tools/did/constants.rs`, which is not under `src/`.
Modelled from the spec: the verkey-type string constant attached to every record
(its concrete value is irrelevant to the claims). -/
def KEY_TYPE : String := "ed25519"

/-- The outcome of `Key::create` (`tools/did/key.rs:15-38`) as seen by callers: the
base58 verkey of the derived keypair and the base58 encoding of the first 16 bytes
of the raw public key (used as the default short DID).  Key derivation itself is an
external crypto primitive: deterministic for a fixed seed, random otherwise, so the
derived key enters the embedding as an explicit argument. -/
structure NewKey where
  verkey : String
  short_id : String
deriving DecidableEq

/-- `Key::create` (`tools/did/key.rs:15-38`): derive the keypair (external crypto,
here the `key` argument), then persist the private key under its verkey as the
store id.  The persist happens immediately, before any caller-side check. -/
def Key.create (st : Store) (key : NewKey) : Store :=
  st.insert_key key.verkey

/-- Modelled from the spec: `DidValue::to_qualified` comes from the external
`indy_utils` crate; on a raw identifier it produces the qualified form
`did:<method>:<raw-id>` (sections 3 and 4.2). -/
def toQualified (did method : String) : String :=
  "did:" ++ method ++ ":" ++ did

/-- The tag vector built by `Did::create` (`tools/did/mod.rs:61-71`): `verkey` and
`verkey_type` always, plus a `method` tag when a method is supplied. -/
def create_tags (key : NewKey) (method : Option String) : List EntryTag :=
  [("verkey", key.verkey), ("verkey_type", KEY_TYPE)] ++
    (match method with
     | some m => [("method", m)]
     | none => [])

namespace Did

/-- `Did::create` (`tools/did/mod.rs:37-89`).  Stateful operations return the
post-state paired with the result; a failing operation still returns the state it
has already mutated (the key created at line 45 is persisted before the duplicate
check at line 54). -/
def create (st : Store) (key : NewKey) (did : Option String) (metadata : Option String)
    (method : Option String) : Store × Except CliError (String × String) :=
  let st1 := Key.create st key
  let did0 :=
    match did with
    | some d => d
    | none => key.short_id
  match st1.fetch_record did0 with
  | some _ => (st1, Except.error (CliError.duplicate "DID already exits in the wallet"))
  | none =>
    let did1 :=
      match method with
      | some m => toQualified did0 m
      | none => did0
    let did_info : DidInfo :=
      ⟨did1, key.verkey, KEY_TYPE, method, metadata, none⟩
    match st1.store_record did_info.did did_info (create_tags key method) true with
    | Except.ok st2 => (st2, Except.ok (did1, key.verkey))
    | Except.error e => (st1, Except.error e)

/-- `Did::replace_keys_start` (`tools/did/mod.rs:91-117`): fetch the record for
update, create a new key, set `next_verkey` while leaving `verkey` untouched,
persist under the record's own `did` field with the original tags. -/
def replace_keys_start (st : Store) (did : String) (key : NewKey) :
    Store × Except CliError String :=
  match st.fetch_record did with
  | none =>
    (st, Except.error (CliError.notFound ("DID " ++ did ++ " does not exits in the wallet.")))
  | some entry =>
    let st1 := Key.create st key
    let did_info : DidInfo := { entry.value with next_verkey := some key.verkey }
    match st1.store_record did_info.did did_info entry.tags false with
    | Except.ok st2 => (st2, Except.ok key.verkey)
    | Except.error e => (st1, Except.error e)

/-- `Did::replace_keys_apply` (`tools/did/mod.rs:119-147`): fetch for update, fail
`InvalidEntityState` when `next_verkey` is unset, otherwise promote `next_verkey`
into `verkey`, clear it and persist with the original tags. -/
def replace_keys_apply (st : Store) (did : String) : Store × Except CliError Unit :=
  match st.fetch_record did with
  | none =>
    (st, Except.error (CliError.notFound ("DID " ++ did ++ " does not exits in the wallet.")))
  | some entry =>
    match entry.value.next_verkey with
    | none =>
      (st, Except.error (CliError.invalidEntityState
        ("Next key is not set for the DID " ++ did ++ ".")))
    | some nv =>
      let did_info : DidInfo := { entry.value with verkey := nv, next_verkey := none }
      match st.store_record did_info.did did_info entry.tags false with
      | Except.ok st2 => (st2, Except.ok ())
      | Except.error e => (st, Except.error e)

/-- `Did::set_metadata` (`tools/did/mod.rs:149-172`): fetch for update, overwrite
the metadata field only, persist with the original tags (read-merge-write). -/
def set_metadata (st : Store) (did : String) (metadata : String) :
    Store × Except CliError Unit :=
  match st.fetch_record did with
  | none =>
    (st, Except.error (CliError.notFound ("DID " ++ did ++ " does not exits in the wallet.")))
  | some entry =>
    let did_info : DidInfo := { entry.value with metadata := some metadata }
    match st.store_record did_info.did did_info entry.tags false with
    | Except.ok st2 => (st2, Except.ok ())
    | Except.error e => (st, Except.error e)

/-- `Did::get` (`tools/did/mod.rs:174-183`): exact-id lookup of the deserialized
record, `NotFound` when absent. -/
def get (st : Store) (did : String) : Except CliError DidInfo :=
  match st.fetch_record did with
  | some entry => Except.ok entry.value
  | none =>
    Except.error (CliError.notFound ("DID " ++ did ++ " does not exits in the wallet."))

/-- `Did::qualify` (`tools/did/mod.rs:203-229`): fetch for update, compute the
qualified id, delete the record under the old id, then insert the record (same
fields but for `did`, same tags) under the new id as a fresh record. -/
def qualify (st : Store) (did : String) (method : String) :
    Store × Except CliError String :=
  match st.fetch_record did with
  | none =>
    (st, Except.error (CliError.notFound ("DID " ++ did ++ " does not exits in the wallet!")))
  | some entry =>
    let qualified_did := toQualified did method
    match st.remove_record did with
    | Except.error e => (st, Except.error e)
    | Except.ok st1 =>
      let did_info : DidInfo := { entry.value with did := qualified_did }
      match st1.store_record did_info.did did_info entry.tags true with
      | Except.ok st2 => (st2, Except.ok qualified_did)
      | Except.error e => (st1, Except.error e)

end Did

/-- A key entry as surfaced by `Session.fetch_all_keys` during backup: the verkey
name, the attached metadata, and whether `load_local_key()` succeeds on it (key
material deserialization is an external primitive that can fail on a corrupt
record). -/
structure KeyEntry where
  name : String
  metadata : Option String
  load_ok : Bool
deriving DecidableEq

namespace Wallet

/-- The DID-record half of `Wallet::copy_records` (`tools/wallet/mod.rs:261-272`):
each `insert` into the target session has its result discarded with `.ok()`, so the
records staged are exactly those whose insert succeeded; target-side insert
failures (e.g. a duplicate name) are abstracted by the `insert_ok` predicate. -/
def copy_dids (did_entries : List Entry) (insert_ok : String → Bool) : List Entry :=
  did_entries.filter (fun e => insert_ok e.name)

/-- The key half of `Wallet::copy_records` (`tools/wallet/mod.rs:278-289`): each
iteration first runs `entry.load_local_key()?` — the `?` propagates a load failure
and aborts the whole copy — and only the subsequent `insert_key` has its result
discarded with `.ok()`. -/
def copy_keys (key_entries : List KeyEntry) (insert_key_ok : String → Bool) :
    Except CliError (List KeyEntry) :=
  match key_entries with
  | [] => Except.ok []
  | k :: rest =>
    if k.load_ok then
      match copy_keys rest insert_key_ok with
      | Except.ok staged =>
        Except.ok (if insert_key_ok k.name then k :: staged else staged)
      | Except.error e => Except.error e
    else
      Except.error (CliError.other ("Failed to load key " ++ k.name))

/-- `Wallet::copy_records` (`tools/wallet/mod.rs:253-295`): copy the DID category
and all keys from the source to the target session, then commit the target.  The
returned pair is the committed content of the target session; on an error nothing
is committed (the sessions are dropped). -/
def copy_records (did_entries : List Entry) (key_entries : List KeyEntry)
    (insert_ok insert_key_ok : String → Bool) :
    Except CliError (List Entry × List KeyEntry) :=
  match copy_keys key_entries insert_key_ok with
  | Except.ok staged_keys => Except.ok (copy_dids did_entries insert_ok, staged_keys)
  | Except.error e => Except.error e

/-- Observable outcome of `Wallet::export`: the returned result, whether the target
session was committed, and whether the provisioned backup store was closed. -/
structure ExportOutcome where
  result : Except CliError (List Entry × List KeyEntry)
  committed : Bool
  backup_store_closed : Bool
deriving DecidableEq

/-- `Wallet::export` (`tools/wallet/mod.rs:157-174`): provision the backup store,
run `copy_records` (which commits the target only after all records are staged),
then `backup_store.close()`.  The `?` on `copy_records` returns before the close
statement, so on that error path the backup store is left open. -/
def export_wallet (did_entries : List Entry) (key_entries : List KeyEntry)
    (insert_ok insert_key_ok : String → Bool) : ExportOutcome :=
  match copy_records did_entries key_entries insert_ok insert_key_ok with
  | Except.ok staged => ⟨Except.ok staged, true, true⟩
  | Except.error e => ⟨Except.error e, false, false⟩

/-- Observable outcome of `Wallet::import`: result, target commit, and the two
close flags (backup/source store and newly provisioned store). -/
structure ImportOutcome where
  result : Except CliError (List Entry × List KeyEntry)
  committed : Bool
  backup_store_closed : Bool
  new_store_closed : Bool
deriving DecidableEq

/-- `Wallet::import` (`tools/wallet/mod.rs:217-250`): open the backup store,
provision the new store, run `copy_records`, then close both stores.  The `?` on
`copy_records` returns before either close statement, so on that error path both
stores are left open. -/
def import_wallet (did_entries : List Entry) (key_entries : List KeyEntry)
    (insert_ok insert_key_ok : String → Bool) : ImportOutcome :=
  match copy_records did_entries key_entries insert_ok insert_key_ok with
  | Except.ok staged => ⟨Except.ok staged, true, true, true⟩
  | Except.error e => ⟨Except.error e, false, false, false⟩

end Wallet

/-- The id under which `Did::create` persists a record for an explicit id `d`:
`d` itself, or its qualified form when a method is supplied
(`tools/did/mod.rs:65-71`). -/
def final_did (d : String) (method : Option String) : String :=
  match method with
  | some m => toQualified d m
  | none => d

/-- Whether a result is a `Duplicate` error (of any message). -/
def hasDuplicateErr {α : Type} : Except CliError α → Bool
  | Except.error (CliError.duplicate _) => true
  | _ => false

/-- Whether some stored DID record violates the `nextVerkey ≠ verkey` invariant of
section 3 of the specification. -/
def has_next_eq_verkey (st : Store) : Bool :=
  st.dids.any (fun e => e.value.next_verkey == some e.value.verkey)

/-! ### Basic lemmas about the store model -/

theorem find?_append_entry (l₁ l₂ : List Entry) (p : Entry → Bool) :
    (l₁ ++ l₂).find? p =
      match l₁.find? p with
      | some x => some x
      | none => l₂.find? p := by
  induction l₁ with
  | nil => simp
  | cons a l ih =>
    cases hpa : p a <;> simp [List.find?_cons, hpa, ih]

theorem insert_key_dids (st : Store) (v : String) : (st.insert_key v).dids = st.dids := by
  unfold Store.insert_key
  split <;> rfl

theorem insert_key_fetch (st : Store) (v n : String) :
    (st.insert_key v).fetch_record n = st.fetch_record n := by
  unfold Store.fetch_record
  rw [insert_key_dids]

theorem beq_false_of_ne {a b : String} (h : a ≠ b) : (a == b) = false := by
  simp [h]

theorem find?_replaceEntry_self {l : List Entry} {name : String} (v : DidInfo)
    (t : List EntryTag) (h : (l.find? (fun e => e.name == name)).isSome) :
    (replaceEntry l name v t).find? (fun e => e.name == name) = some ⟨name, v, t⟩ := by
  induction l with
  | nil => simp [List.find?] at h
  | cons a l ih =>
    by_cases ha : a.name = name
    · simp [replaceEntry, List.find?_cons, ha]
    · have ha' : (a.name == name) = false := beq_false_of_ne ha
      rw [List.find?_cons, ha'] at h
      simp [replaceEntry, List.find?_cons, ha', ih h]

theorem find?_replaceEntry_ne {l : List Entry} {name n : String} (v : DidInfo)
    (t : List EntryTag) (h : n ≠ name) :
    (replaceEntry l name v t).find? (fun e => e.name == n) =
      l.find? (fun e => e.name == n) := by
  induction l with
  | nil => rfl
  | cons a l ih =>
    rw [replaceEntry]
    by_cases ha : a.name = name
    · rw [if_pos (by simp [ha])]
      have h1 : ((⟨name, v, t⟩ : Entry).name == n) = false := beq_false_of_ne (Ne.symm h)
      have h2 : (a.name == n) = false := by
        rw [ha]
        exact beq_false_of_ne (Ne.symm h)
      simp only [List.find?_cons, h1, h2]
      exact ih
    · rw [if_neg (by simp [ha])]
      simp only [List.find?_cons]
      cases han : (a.name == n) with
      | false =>
        simp only []
        exact ih
      | true => rfl

theorem mem_replaceEntry {l : List Entry} {name : String} {v : DidInfo}
    {t : List EntryTag} {e : Entry} (h : e ∈ replaceEntry l name v t) :
    e ∈ l ∨ e = ⟨name, v, t⟩ := by
  induction l with
  | nil => simp [replaceEntry] at h
  | cons a l ih =>
    by_cases ha : a.name = name
    · rw [replaceEntry, if_pos (by simp [ha])] at h
      rcases List.mem_cons.1 h with h | h
      · right
        exact h
      · rcases ih h with h | h
        · exact Or.inl (List.mem_cons_of_mem _ h)
        · exact Or.inr h
    · rw [replaceEntry, if_neg (by simp [ha])] at h
      rcases List.mem_cons.1 h with h | h
      · exact Or.inl (h ▸ List.mem_cons_self _ _)
      · rcases ih h with h | h
        · exact Or.inl (List.mem_cons_of_mem _ h)
        · exact Or.inr h

theorem find?_filter_self {l : List Entry} {name : String} :
    (l.filter (fun e => e.name != name)).find? (fun e => e.name == name) = none := by
  induction l with
  | nil => rfl
  | cons a l ih =>
    rw [List.filter_cons]
    by_cases ha : a.name = name
    · rw [if_neg (by simp [ha])]
      exact ih
    · rw [if_pos (by simp [ha])]
      simp only [List.find?_cons, beq_false_of_ne ha]
      exact ih

theorem find?_filter_ne {l : List Entry} {name n : String} (h : n ≠ name) :
    (l.filter (fun e => e.name != name)).find? (fun e => e.name == n) =
      l.find? (fun e => e.name == n) := by
  induction l with
  | nil => rfl
  | cons a l ih =>
    rw [List.filter_cons]
    by_cases ha : a.name = name
    · have han : (a.name == n) = false := by
        rw [ha]
        exact beq_false_of_ne (Ne.symm h)
      rw [if_neg (by simp [ha])]
      simp only [List.find?_cons, han]
      exact ih
    · rw [if_pos (by simp [ha])]
      simp only [List.find?_cons]
      cases han : (a.name == n) with
      | false =>
        simp only []
        exact ih
      | true => rfl

theorem store_record_replace (st : Store) {n : String} {e : Entry} (v : DidInfo)
    (t : List EntryTag) (h : st.fetch_record n = some e) :
    st.store_record n v t false =
      Except.ok { st with dids := replaceEntry st.dids n v t } := by
  unfold Store.store_record
  rw [h]
  rfl

theorem store_record_insert {st : Store} {n : String} (v : DidInfo)
    (t : List EntryTag) (h : st.fetch_record n = none) :
    st.store_record n v t true =
      Except.ok { st with dids := st.dids ++ [⟨n, v, t⟩] } := by
  unfold Store.store_record
  rw [h]
  rfl

theorem store_record_dup {st : Store} {n : String} {e : Entry} (v : DidInfo)
    (t : List EntryTag) (h : st.fetch_record n = some e) :
    st.store_record n v t true = Except.error (CliError.duplicate "Duplicate record") := by
  unfold Store.store_record
  rw [h]
  rfl

theorem remove_record_ok {st : Store} {n : String} {e : Entry}
    (h : st.fetch_record n = some e) :
    st.remove_record n =
      Except.ok { st with dids := st.dids.filter (fun x => x.name != n) } := by
  unfold Store.remove_record
  rw [h]

theorem fetch_replace_self {st : Store} {n : String} (v : DidInfo) (t : List EntryTag)
    (h : (st.fetch_record n).isSome) :
    ({ st with dids := replaceEntry st.dids n v t } : Store).fetch_record n =
      some ⟨n, v, t⟩ :=
  find?_replaceEntry_self v t h

theorem fetch_replace_ne {st : Store} {n m : String} (v : DidInfo) (t : List EntryTag)
    (h : m ≠ n) :
    ({ st with dids := replaceEntry st.dids n v t } : Store).fetch_record m =
      st.fetch_record m :=
  find?_replaceEntry_ne v t h

theorem fetch_append_self (st : Store) {n : String} (v : DidInfo) (t : List EntryTag)
    (h : st.fetch_record n = none) :
    ({ st with dids := st.dids ++ [⟨n, v, t⟩] } : Store).fetch_record n =
      some ⟨n, v, t⟩ := by
  unfold Store.fetch_record at h ⊢
  rw [find?_append_entry, h]
  simp [List.find?_cons]

theorem fetch_append_ne (st : Store) {n m : String} (v : DidInfo) (t : List EntryTag)
    (h : m ≠ n) :
    ({ st with dids := st.dids ++ [⟨n, v, t⟩] } : Store).fetch_record m =
      st.fetch_record m := by
  unfold Store.fetch_record
  rw [find?_append_entry]
  cases hf : st.dids.find? (fun e => e.name == m) with
  | some x => rfl
  | none => simp [List.find?_cons, beq_false_of_ne (Ne.symm h)]

theorem fetch_filter_self (st : Store) (n : String) :
    ({ st with dids := st.dids.filter (fun x => x.name != n) } : Store).fetch_record n =
      none :=
  find?_filter_self

theorem fetch_filter_ne {st : Store} {n m : String} (h : m ≠ n) :
    ({ st with dids := st.dids.filter (fun x => x.name != n) } : Store).fetch_record m =
      st.fetch_record m :=
  find?_filter_ne h

theorem fetch_record_mem {st : Store} {n : String} {e : Entry}
    (h : st.fetch_record n = some e) : e ∈ st.dids ∧ e.name = n := by
  unfold Store.fetch_record at h
  refine ⟨List.mem_of_find?_eq_some h, ?_⟩
  have := List.find?_some h
  simpa using this

theorem toQualified_ne (d m : String) : toQualified d m ≠ d := by
  intro h
  have hlen : (toQualified d m).length = d.length := by rw [h]
  unfold toQualified at hlen
  rw [String.length_append, String.length_append, String.length_append] at hlen
  have h4 : ("did:" : String).length = 4 := rfl
  have h1 : (":" : String).length = 1 := rfl
  omega

/-! ### Inversion lemmas for the identity operations -/

theorem create_dids_cases {st st' : Store} {key : NewKey} {d meta method : Option String}
    {r : Except CliError (String × String)}
    (h : Did.create st key d meta method = (st', r)) :
    st'.dids = st.dids ∨
      ∃ name info tags, DidInfo.next_verkey info = none ∧
        st'.dids = st.dids ++ [⟨name, info, tags⟩] := by
  unfold Did.create at h
  simp only [] at h
  have hkc : Key.create st key = st.insert_key key.verkey := rfl
  obtain ⟨d0, hd0⟩ : ∃ d0, (match d with | some dd => dd | none => key.short_id) = d0 := ⟨_, rfl⟩
  rw [hd0] at h
  obtain ⟨d1, hd1⟩ :
      ∃ d1, (match method with | some m => toQualified d0 m | none => d0) = d1 := ⟨_, rfl⟩
  rw [hd1] at h
  cases hfd : (Key.create st key).fetch_record d0 with
  | some x =>
    rw [hfd] at h
    simp only [] at h
    injection h with h1 h2
    rw [← h1, hkc, insert_key_dids]
    exact Or.inl rfl
  | none =>
    rw [hfd] at h
    simp only [] at h
    cases hfq : (Key.create st key).fetch_record d1 with
    | some y =>
      rw [store_record_dup _ _ hfq] at h
      simp only [] at h
      injection h with h1 h2
      rw [← h1, hkc, insert_key_dids]
      exact Or.inl rfl
    | none =>
      rw [store_record_insert _ _ hfq] at h
      simp only [] at h
      injection h with h1 h2
      refine Or.inr ⟨d1, ⟨d1, key.verkey, KEY_TYPE, method, meta, none⟩,
        create_tags key method, rfl, ?_⟩
      rw [← h1]
      show (Key.create st key).dids ++ _ = _
      rw [hkc, insert_key_dids]

theorem apply_dids_cases {st st' : Store} {did : String} {r : Except CliError Unit}
    (h : Did.replace_keys_apply st did = (st', r)) :
    st'.dids = st.dids ∨
      ∃ name info tags, DidInfo.next_verkey info = none ∧
        st'.dids = replaceEntry st.dids name info tags := by
  unfold Did.replace_keys_apply at h
  cases hfd : st.fetch_record did with
  | none =>
    rw [hfd] at h
    injection h with h1 h2
    rw [← h1]
    exact Or.inl rfl
  | some entry =>
    rw [hfd] at h
    simp only [] at h
    cases hnv : entry.value.next_verkey with
    | none =>
      rw [hnv] at h
      simp only [] at h
      injection h with h1 h2
      rw [← h1]
      exact Or.inl rfl
    | some nv =>
      rw [hnv] at h
      simp only [] at h
      cases hsq :
          st.fetch_record (DidInfo.did { entry.value with verkey := nv, next_verkey := none }) with
      | none =>
        rw [show st.store_record (DidInfo.did { entry.value with verkey := nv, next_verkey := none })
              { entry.value with verkey := nv, next_verkey := none } entry.tags false =
            Except.error (CliError.notFound "Record not found") from by
          unfold Store.store_record
          rw [hsq]
          rfl] at h
        simp only [] at h
        injection h with h1 h2
        rw [← h1]
        exact Or.inl rfl
      | some y =>
        rw [store_record_replace _ _ _ hsq] at h
        simp only [] at h
        injection h with h1 h2
        refine Or.inr ⟨DidInfo.did { entry.value with verkey := nv, next_verkey := none },
          { entry.value with verkey := nv, next_verkey := none }, entry.tags, rfl, ?_⟩
        rw [← h1]

theorem create_some_ok_inv {st st' : Store} {key : NewKey} {d : String}
    {meta method : Option String} {r : String × String}
    (h : Did.create st key (some d) meta method = (st', Except.ok r)) :
    st.fetch_record d = none ∧
    st.fetch_record (final_did d method) = none ∧
    r = (final_did d method, key.verkey) ∧
    st' = Store.mk
        (st.dids ++ [⟨final_did d method,
          ⟨final_did d method, key.verkey, KEY_TYPE, method, meta, none⟩,
          create_tags key method⟩])
        ((st.insert_key key.verkey).keys) := by
  unfold Did.create at h
  simp only [] at h
  have hkc : Key.create st key = st.insert_key key.verkey := rfl
  cases method with
  | none =>
    simp only [final_did]
    simp only [] at h
    cases hfd : (Key.create st key).fetch_record d with
    | some x =>
      rw [hfd] at h
      simp only [] at h
      injection h with h1 h2
      exact absurd h2 (by simp)
    | none =>
      rw [hfd] at h
      simp only [] at h
      have hfd' : st.fetch_record d = none := by
        rw [← insert_key_fetch st key.verkey d, ← hkc, hfd]
      rw [store_record_insert _ _ hfd] at h
      simp only [] at h
      injection h with h1 h2
      refine ⟨hfd', hfd', ?_, ?_⟩
      · injection h2 with h3
        exact h3.symm
      · rw [← h1]
        simp only [Store.mk.injEq]
        constructor
        · rw [hkc, insert_key_dids]
        · rw [hkc]
  | some m =>
    simp only [final_did]
    simp only [] at h
    cases hfd : (Key.create st key).fetch_record d with
    | some x =>
      rw [hfd] at h
      simp only [] at h
      injection h with h1 h2
      exact absurd h2 (by simp)
    | none =>
      rw [hfd] at h
      simp only [] at h
      have hfd' : st.fetch_record d = none := by
        rw [← insert_key_fetch st key.verkey d, ← hkc, hfd]
      cases hfq : (Key.create st key).fetch_record (toQualified d m) with
      | some y =>
        rw [store_record_dup _ _ hfq] at h
        simp only [] at h
        injection h with h1 h2
        exact absurd h2 (by simp)
      | none =>
        rw [store_record_insert _ _ hfq] at h
        simp only [] at h
        injection h with h1 h2
        have hfq' : st.fetch_record (toQualified d m) = none := by
          rw [← insert_key_fetch st key.verkey (toQualified d m), ← hkc, hfq]
        refine ⟨hfd', hfq', ?_, ?_⟩
        · injection h2 with h3
          exact h3.symm
        · rw [← h1]
          simp only [Store.mk.injEq]
          constructor
          · rw [hkc, insert_key_dids]
          · rw [hkc]

theorem start_ok_inv {st st' : Store} {did vk : String} {key : NewKey} {e : Entry}
    (hf : st.fetch_record did = some e)
    (h : Did.replace_keys_start st did key = (st', Except.ok vk)) :
    vk = key.verkey ∧
    st'.fetch_record e.value.did =
      some ⟨e.value.did, { e.value with next_verkey := some key.verkey }, e.tags⟩ ∧
    (∀ n, n ≠ e.value.did → st'.fetch_record n = st.fetch_record n) := by
  unfold Did.replace_keys_start at h
  rw [hf] at h
  simp only [] at h
  have hkc : Key.create st key = st.insert_key key.verkey := rfl
  cases hsq : (Key.create st key).fetch_record e.value.did with
  | none =>
    rw [show (Key.create st key).store_record e.value.did
          { e.value with next_verkey := some key.verkey } e.tags false =
        Except.error (CliError.notFound "Record not found") from by
      unfold Store.store_record
      rw [hsq]
      rfl] at h
    simp only [] at h
    injection h with h1 h2
    exact absurd h2 (by simp)
  | some y =>
    rw [store_record_replace _ _ _ hsq] at h
    simp only [] at h
    injection h with h1 h2
    injection h2 with h3
    refine ⟨h3.symm, ?_, ?_⟩
    · rw [← h1]
      exact fetch_replace_self _ _ (by rw [hsq]; rfl)
    · intro n hn
      rw [← h1, fetch_replace_ne _ _ hn, hkc, insert_key_fetch]

theorem set_metadata_ok_inv {st st' : Store} {did m : String} {e : Entry}
    (hf : st.fetch_record did = some e)
    (h : Did.set_metadata st did m = (st', Except.ok ())) :
    st'.fetch_record e.value.did =
      some ⟨e.value.did, { e.value with metadata := some m }, e.tags⟩ ∧
    (∀ n, n ≠ e.value.did → st'.fetch_record n = st.fetch_record n) ∧
    st'.keys = st.keys := by
  unfold Did.set_metadata at h
  rw [hf] at h
  simp only [] at h
  cases hsq : st.fetch_record e.value.did with
  | none =>
    rw [show st.store_record e.value.did
          { e.value with metadata := some m } e.tags false =
        Except.error (CliError.notFound "Record not found") from by
      unfold Store.store_record
      rw [hsq]
      rfl] at h
    simp only [] at h
    injection h with h1 h2
    exact absurd h2 (by simp)
  | some y =>
    rw [store_record_replace _ _ _ hsq] at h
    simp only [] at h
    injection h with h1 h2
    refine ⟨?_, ?_, ?_⟩
    · rw [← h1]
      exact fetch_replace_self _ _ (by rw [hsq]; rfl)
    · intro n hn
      rw [← h1, fetch_replace_ne _ _ hn]
    · rw [← h1]

theorem qualify_ok_inv {st st' : Store} {did method q : String} {e : Entry}
    (hf : st.fetch_record did = some e)
    (h : Did.qualify st did method = (st', Except.ok q)) :
    q = toQualified did method ∧
    st'.fetch_record q = some ⟨q, { e.value with did := q }, e.tags⟩ ∧
    st'.fetch_record did = none ∧
    st'.keys = st.keys := by
  unfold Did.qualify at h
  rw [hf] at h
  simp only [] at h
  rw [remove_record_ok hf] at h
  simp only [] at h
  cases hfq : ({ st with dids := st.dids.filter (fun x => x.name != did) } : Store).fetch_record
      (toQualified did method) with
  | some y =>
    rw [store_record_dup _ _ hfq] at h
    simp only [] at h
    injection h with h1 h2
    exact absurd h2 (by simp)
  | none =>
    rw [store_record_insert _ _ hfq] at h
    simp only [] at h
    injection h with h1 h2
    injection h2 with h3
    subst h3
    refine ⟨rfl, ?_, ?_, ?_⟩
    · rw [← h1]
      exact fetch_append_self _ _ _ hfq
    · rw [← h1]
      have hne : did ≠ toQualified did method := Ne.symm (toQualified_ne did method)
      have hstep := fetch_append_ne
        (⟨List.filter (fun x => x.name != did) st.dids, st.keys⟩ : Store)
        ({ e.value with did := toQualified did method }) e.tags hne
      exact hstep.trans (fetch_filter_self st did)
    · rw [← h1]

/-! ### Claim theorems -/

/-- C1: for every DID record present in the store, `replace_keys_start` returning
`nextVerkey` followed by `replace_keys_apply` leaves the store so that `get`
returns a record whose `verkey` equals the `nextVerkey` returned by `start` and
whose `next_verkey` field is `None`. -/
theorem C1_start_then_apply_promotes_key (st : Store) (did : String) (e : Entry)
    (key : NewKey) (hf : st.fetch_record did = some e) (hwf : e.value.did = did) :
    ∃ st1 st2 info,
      Did.replace_keys_start st did key = (st1, Except.ok key.verkey) ∧
      Did.replace_keys_apply st1 did = (st2, Except.ok ()) ∧
      Did.get st2 did = Except.ok info ∧
      info.verkey = key.verkey ∧
      info.next_verkey = none := by
  have hkc : Key.create st key = st.insert_key key.verkey := rfl
  have hfk : (st.insert_key key.verkey).fetch_record e.value.did = some e := by
    rw [insert_key_fetch, hwf, hf]
  have hsr := store_record_replace (st.insert_key key.verkey)
    ({ e.value with next_verkey := some key.verkey }) e.tags hfk
  have h1 : Did.replace_keys_start st did key =
      ({ st.insert_key key.verkey with
          dids := replaceEntry (st.insert_key key.verkey).dids e.value.did
            { e.value with next_verkey := some key.verkey } e.tags },
        Except.ok key.verkey) := by
    unfold Did.replace_keys_start
    rw [hf]
    simp only [hkc]
    rw [hsr]
  set st1 : Store :=
    { st.insert_key key.verkey with
        dids := replaceEntry (st.insert_key key.verkey).dids e.value.did
          { e.value with next_verkey := some key.verkey } e.tags } with hst1
  have hf1 : st1.fetch_record did = some ⟨did, { e.value with next_verkey := some key.verkey }, e.tags⟩ := by
    rw [hst1]
    rw [← hwf] at hf ⊢
    exact fetch_replace_self _ _ (by rw [insert_key_fetch, hf]; rfl)
  have hsr2 := store_record_replace st1
    ({ e.value with verkey := key.verkey, next_verkey := none }) e.tags
    (by rw [← hwf] at hf1; exact hf1)
  have h2 : Did.replace_keys_apply st1 did =
      ({ st1 with
          dids := replaceEntry st1.dids e.value.did
            { e.value with verkey := key.verkey, next_verkey := none } e.tags },
        Except.ok ()) := by
    unfold Did.replace_keys_apply
    rw [hf1]
    simp only []
    rw [hsr2]
  set st2 : Store :=
    { st1 with
        dids := replaceEntry st1.dids e.value.did
          { e.value with verkey := key.verkey, next_verkey := none } e.tags } with hst2
  have hf2 : st2.fetch_record did =
      some ⟨did, { e.value with verkey := key.verkey, next_verkey := none }, e.tags⟩ := by
    rw [hst2]
    rw [← hwf] at hf1 ⊢
    exact fetch_replace_self _ _ (by rw [hf1]; rfl)
  refine ⟨st1, st2, { e.value with verkey := key.verkey, next_verkey := none },
    h1, h2, ?_, rfl, rfl⟩
  unfold Did.get
  rw [hf2]

/-- C2 (counterexample): the claimed invariant `nextVerkey ≠ verkey` fails on the
code.  `Did::replace_keys_start` stores the freshly created key's verkey as
`next_verkey` without comparing it to the record's current `verkey`
(`tools/did/mod.rs:99-113`); key derivation from a seed is deterministic, so
calling `start` with the seed that derived the record's current key yields the
same verkey, and the stored record then has `next_verkey = some verkey`. -/
theorem C2_counterexample :
    has_next_eq_verkey
      (Did.replace_keys_start
        (Did.create (Store.mk [] []) ⟨"VK", "ID"⟩ (some "d") none none).1
        "d" ⟨"VK", "ID"⟩).1 = true := by
  decide

/-- C2 (amended): `next_verkey` is governed by the rotation window in the
following sense — `create` only adds records with `next_verkey = None` and
`replace_keys_apply` only produces records with `next_verkey = None`;
`set_metadata` and `qualify` carry the stored `next_verkey` over unchanged; only
`replace_keys_start` sets it, namely to the verkey of the key it just created,
leaving `verkey` untouched.  Consequently `next_verkey ≠ verkey` holds whenever
the key created by `start` differs from the record's current verkey, but not when
`start` is invoked with a seed deriving the record's current key. -/
theorem C2_next_verkey_lifecycle :
    (∀ (st st' : Store) (key : NewKey) (d meta method : Option String)
        (r : Except CliError (String × String)),
      Did.create st key d meta method = (st', r) →
      ∀ e, e ∈ st'.dids → e ∈ st.dids ∨ e.value.next_verkey = none) ∧
    (∀ (st st' : Store) (did : String) (r : Except CliError Unit),
      Did.replace_keys_apply st did = (st', r) →
      ∀ e, e ∈ st'.dids → e ∈ st.dids ∨ e.value.next_verkey = none) ∧
    (∀ (st st' : Store) (did vk : String) (key : NewKey) (e : Entry),
      st.fetch_record did = some e →
      Did.replace_keys_start st did key = (st', Except.ok vk) →
      vk = key.verkey ∧
      st'.fetch_record e.value.did =
        some ⟨e.value.did, { e.value with next_verkey := some key.verkey }, e.tags⟩) ∧
    (∀ (st st' : Store) (did m : String) (e : Entry),
      st.fetch_record did = some e →
      Did.set_metadata st did m = (st', Except.ok ()) →
      st'.fetch_record e.value.did =
        some ⟨e.value.did, { e.value with metadata := some m }, e.tags⟩) ∧
    (∀ (st st' : Store) (did method q : String) (e : Entry),
      st.fetch_record did = some e →
      Did.qualify st did method = (st', Except.ok q) →
      st'.fetch_record q = some ⟨q, { e.value with did := q }, e.tags⟩) := by
  refine ⟨?_, ?_, ?_, ?_, ?_⟩
  · intro st st' key d meta method r h e he
    rcases create_dids_cases h with hd | ⟨name, info, tags, hni, hd⟩
    · rw [hd] at he
      exact Or.inl he
    · rw [hd] at he
      rcases List.mem_append.1 he with hm | hm
      · exact Or.inl hm
      · right
        rw [List.mem_singleton.1 hm]
        exact hni
  · intro st st' did r h e he
    rcases apply_dids_cases h with hd | ⟨name, info, tags, hni, hd⟩
    · rw [hd] at he
      exact Or.inl he
    · rw [hd] at he
      rcases mem_replaceEntry he with hm | hm
      · exact Or.inl hm
      · right
        rw [hm]
        exact hni
  · intro st st' did vk key e hf h
    exact ⟨(start_ok_inv hf h).1, (start_ok_inv hf h).2.1⟩
  · intro st st' did m e hf h
    exact (set_metadata_ok_inv hf h).1
  · intro st st' did method q e hf h
    rcases qualify_ok_inv hf h with ⟨hq, hfq, hfd, hk⟩
    exact hfq

/-- C4: `replace_keys_apply` on a record whose `next_verkey` is unset fails with
the `InvalidEntityState` error and returns the store unchanged. -/
theorem C4_apply_without_start_fails (st : Store) (did : String) (e : Entry)
    (hf : st.fetch_record did = some e) (hnv : e.value.next_verkey = none) :
    Did.replace_keys_apply st did =
      (st, Except.error (CliError.invalidEntityState
        ("Next key is not set for the DID " ++ did ++ "."))) := by
  unfold Did.replace_keys_apply
  rw [hf]
  simp only []
  rw [hnv]

/-- C5: `set_metadata` on a record with a pending rotation replaces its metadata
and leaves `verkey`, `next_verkey`, `verkey_type`, `method` and the store tags
unchanged; every other record is untouched. -/
theorem C5_set_metadata_frame (st : Store) (did m nv : String) (e : Entry)
    (hf : st.fetch_record did = some e) (hwf : e.value.did = did)
    (hp : e.value.next_verkey = some nv) :
    ∃ st',
      Did.set_metadata st did m = (st', Except.ok ()) ∧
      st'.fetch_record did = some ⟨did, { e.value with metadata := some m }, e.tags⟩ ∧
      ({ e.value with metadata := some m } : DidInfo).verkey = e.value.verkey ∧
      ({ e.value with metadata := some m } : DidInfo).next_verkey = some nv ∧
      ({ e.value with metadata := some m } : DidInfo).verkey_type = e.value.verkey_type ∧
      ({ e.value with metadata := some m } : DidInfo).method = e.value.method ∧
      (∀ n, n ≠ did → st'.fetch_record n = st.fetch_record n) ∧
      st'.keys = st.keys := by
  have hsr := store_record_replace st ({ e.value with metadata := some m }) e.tags
    (show st.fetch_record e.value.did = some e by rw [hwf]; exact hf)
  have h1 : Did.set_metadata st did m = ({ st with dids := replaceEntry st.dids e.value.did ({ e.value with metadata := some m }) e.tags }, Except.ok ()) := by
    unfold Did.set_metadata
    rw [hf]
    simp only []
    rw [hsr]
  refine ⟨_, h1, ?_, rfl, hp, rfl, rfl, ?_, rfl⟩
  · rw [← hwf]
    exact fetch_replace_self _ _ (by rw [hwf, hf]; rfl)
  · intro n hn
    exact fetch_replace_ne _ _ (by rw [hwf]; exact hn)

/-- Forward characterization of a successful `Did::qualify`: with the old id
present and the qualified id free, the record moves from the old id to the
qualified id, with the same value (but for the `did` field) and the same tags. -/
theorem qualify_forward {st : Store} {did method : String} {e : Entry}
    (hf : st.fetch_record did = some e)
    (hq : st.fetch_record (toQualified did method) = none) :
    Did.qualify st did method =
      (Store.mk (st.dids.filter (fun x => x.name != did) ++
        [⟨toQualified did method, { e.value with did := toQualified did method }, e.tags⟩])
        st.keys,
       Except.ok (toQualified did method)) := by
  have hfq1 : ({ st with dids := st.dids.filter (fun x => x.name != did) } : Store).fetch_record
      (toQualified did method) = none :=
    (fetch_filter_ne (toQualified_ne did method)).trans hq
  unfold Did.qualify
  rw [hf]
  simp only []
  rw [remove_record_ok hf]
  simp only []
  rw [store_record_insert _ _ hfq1]

/-- C3 (counterexample): the claim quantifies over every store with no record
under the explicit id `d`.  When a method is supplied, `Did::create` checks for a
duplicate under the raw id (`tools/did/mod.rs:54`) but persists under the
qualified id (`tools/did/mod.rs:66`, `84`); a store that already holds a record
under `did:indy:x` but none under `x` therefore makes `create(x, method=indy)`
fail with a `Duplicate` error, where the claim says it succeeds. -/
theorem C3_counterexample :
    (Store.mk [⟨"did:indy:x", ⟨"did:indy:x", "V", KEY_TYPE, some "indy", none, none⟩, []⟩]
      []).fetch_record "x" = none ∧
    (Did.create
      (Store.mk [⟨"did:indy:x", ⟨"did:indy:x", "V", KEY_TYPE, some "indy", none, none⟩, []⟩] [])
      ⟨"W", "S"⟩ (some "x") none (some "indy")).2 =
      Except.error (CliError.duplicate "Duplicate record") := by
  decide

/-- C3 (amended): `create` with an explicit id `d` succeeds provided the store
holds a record neither under `d` nor under the id the record will be stored
under (`d` itself, or `did:<method>:<d>` when a method is supplied); and after
any successful `create` with explicit id `d`, repeating `create` with the same id
and method fails with a `Duplicate` error. -/
theorem C3_create_fresh_and_duplicate :
    (∀ (st : Store) (key : NewKey) (d : String) (meta method : Option String),
      st.fetch_record d = none →
      st.fetch_record (final_did d method) = none →
      (Did.create st key (some d) meta method).2 =
        Except.ok (final_did d method, key.verkey)) ∧
    (∀ (st st' : Store) (key key2 : NewKey) (d : String) (meta meta2 method : Option String)
        (r : String × String),
      Did.create st key (some d) meta method = (st', Except.ok r) →
      hasDuplicateErr (Did.create st' key2 (some d) meta2 method).2 = true) := by
  constructor
  · intro st key d meta method h1 h2
    have hkc : Key.create st key = st.insert_key key.verkey := rfl
    have hfd1 : (Key.create st key).fetch_record d = none := by
      rw [hkc, insert_key_fetch]
      exact h1
    cases method with
    | none =>
      simp only [final_did]
      unfold Did.create
      simp only []
      rw [hfd1]
      simp only []
      rw [store_record_insert _ _ hfd1]
    | some m =>
      simp only [final_did] at h2 ⊢
      have hfq1 : (Key.create st key).fetch_record (toQualified d m) = none := by
        rw [hkc, insert_key_fetch]
        exact h2
      unfold Did.create
      simp only []
      rw [hfd1]
      simp only []
      rw [store_record_insert _ _ hfq1]
  · intro st st' key key2 d meta meta2 method r h
    obtain ⟨hfd, hfq, hr, hst⟩ := create_some_ok_inv h
    have hkc2 : Key.create st' key2 = st'.insert_key key2.verkey := rfl
    cases method with
    | none =>
      simp only [final_did] at hst
      have hf2 : st'.fetch_record d =
          some ⟨d, ⟨d, key.verkey, KEY_TYPE, none, meta, none⟩, create_tags key none⟩ := by
        rw [hst]
        exact fetch_append_self _ _ _ hfd
      unfold Did.create
      simp only []
      rw [hkc2, insert_key_fetch, hf2]
      rfl
    | some m =>
      simp only [final_did] at hst hfq
      have hfd2 : st'.fetch_record d = none := by
        rw [hst]
        exact (fetch_append_ne (Store.mk st.dids ((st.insert_key key.verkey).keys)) _ _
          (Ne.symm (toQualified_ne d m))).trans hfd
      have hfq2 : st'.fetch_record (toQualified d m) =
          some ⟨toQualified d m, ⟨toQualified d m, key.verkey, KEY_TYPE, some m, meta, none⟩,
            create_tags key (some m)⟩ := by
        rw [hst]
        exact fetch_append_self _ _ _ hfq
      have hfq3 : (st'.insert_key key2.verkey).fetch_record (toQualified d m) =
          some ⟨toQualified d m, ⟨toQualified d m, key.verkey, KEY_TYPE, some m, meta, none⟩,
            create_tags key (some m)⟩ := by
        rw [insert_key_fetch]
        exact hfq2
      unfold Did.create
      simp only []
      rw [hkc2, insert_key_fetch, hfd2]
      simp only []
      rw [store_record_dup _ _ hfq3]
      rfl

/-- C6 (counterexample): the claim quantifies over every stored DID and every
method.  `Did::qualify` deletes the record under the old id and then inserts
under the qualified id as a new record (`tools/did/mod.rs:215-225`); when the
store already holds a record under the qualified id the insert fails `Duplicate`
after the delete has happened, so qualify returns an error instead of the
qualified id — and the record under the old id is already gone. -/
theorem C6_counterexample :
    (Did.qualify
      (Store.mk [⟨"d", ⟨"d", "V", KEY_TYPE, none, none, none⟩, []⟩,
        ⟨"did:indy:d", ⟨"did:indy:d", "W", KEY_TYPE, some "indy", none, none⟩, []⟩] [])
      "d" "indy").2 = Except.error (CliError.duplicate "Duplicate record") ∧
    (Did.qualify
      (Store.mk [⟨"d", ⟨"d", "V", KEY_TYPE, none, none, none⟩, []⟩,
        ⟨"did:indy:d", ⟨"did:indy:d", "W", KEY_TYPE, some "indy", none, none⟩, []⟩] [])
      "d" "indy").1.fetch_record "d" = none := by
  decide

/-- C6 (amended): for every stored DID with raw id `did` whose qualified form
`did:<method>:<did>` is not itself a stored id, `qualify` returns the qualified
id; afterwards `get` under the qualified id succeeds with the same `verkey`,
`next_verkey` and `metadata` (and the stored tags are unchanged), and `get`
under the old id fails `NotFound`. -/
theorem C6_qualify_moves_record (st : Store) (did method : String) (e : Entry)
    (hf : st.fetch_record did = some e)
    (hq : st.fetch_record (toQualified did method) = none) :
    ∃ st',
      Did.qualify st did method = (st', Except.ok (toQualified did method)) ∧
      Did.get st' (toQualified did method) =
        Except.ok ({ e.value with did := toQualified did method }) ∧
      st'.fetch_record (toQualified did method) =
        some ⟨toQualified did method, { e.value with did := toQualified did method }, e.tags⟩ ∧
      ({ e.value with did := toQualified did method } : DidInfo).verkey = e.value.verkey ∧
      ({ e.value with did := toQualified did method } : DidInfo).next_verkey =
        e.value.next_verkey ∧
      ({ e.value with did := toQualified did method } : DidInfo).metadata =
        e.value.metadata ∧
      Did.get st' did =
        Except.error (CliError.notFound ("DID " ++ did ++ " does not exits in the wallet.")) := by
  have h1 := qualify_forward hf hq
  have hfq1 : ({ st with dids := st.dids.filter (fun x => x.name != did) } : Store).fetch_record
      (toQualified did method) = none :=
    (fetch_filter_ne (toQualified_ne did method)).trans hq
  have hnew : (Store.mk (st.dids.filter (fun x => x.name != did) ++
      [⟨toQualified did method, { e.value with did := toQualified did method }, e.tags⟩])
      st.keys).fetch_record (toQualified did method) =
      some ⟨toQualified did method, { e.value with did := toQualified did method }, e.tags⟩ :=
    fetch_append_self ({ st with dids := st.dids.filter (fun x => x.name != did) }) _ _ hfq1
  have hold : (Store.mk (st.dids.filter (fun x => x.name != did) ++
      [⟨toQualified did method, { e.value with did := toQualified did method }, e.tags⟩])
      st.keys).fetch_record did = none := by
    have hstep := fetch_append_ne
      (⟨st.dids.filter (fun x => x.name != did), st.keys⟩ : Store)
      ({ e.value with did := toQualified did method }) e.tags
      (Ne.symm (toQualified_ne did method))
    exact hstep.trans (fetch_filter_self st did)
  refine ⟨_, h1, ?_, hnew, rfl, rfl, rfl, ?_⟩
  · unfold Did.get
    rw [hnew]
  · unfold Did.get
    rw [hold]

/-- C9: `Did::create` persists the freshly derived key (`tools/did/key.rs:32-35`,
called at `tools/did/mod.rs:45`) before the duplicate check at line 54; when that
check fails, the `Duplicate` error is returned with the new key already in the
store's key storage, so the store is not left unchanged on this error path. -/
theorem C9_duplicate_create_persists_key (st : Store) (did : String) (e : Entry)
    (key : NewKey) (meta method : Option String)
    (hf : st.fetch_record did = some e) (hk : st.keys.contains key.verkey = false) :
    Did.create st key (some did) meta method =
      (Store.mk st.dids (st.keys ++ [key.verkey]),
        Except.error (CliError.duplicate "DID already exits in the wallet")) ∧
    Store.mk st.dids (st.keys ++ [key.verkey]) ≠ st := by
  have hins : Key.create st key = Store.mk st.dids (st.keys ++ [key.verkey]) := by
    show st.insert_key key.verkey = _
    unfold Store.insert_key
    rw [hk]
    rfl
  constructor
  · unfold Did.create
    simp only []
    rw [hins]
    rw [show (Store.mk st.dids (st.keys ++ [key.verkey])).fetch_record did = some e from hf]
  · intro hcontra
    have hkeys := congrArg Store.keys hcontra
    have hlen := congrArg List.length hkeys
    simp at hlen

/-- C10: the record re-inserted by `qualify` keeps the old record's JSON `method`
field and its store tags exactly (only the `did` field changes,
`tools/did/mod.rs:217-225`); by contrast, `create` with a supplied method
attaches a `("method", m)` tag (`tools/did/mod.rs:65-71`). -/
theorem C10_qualify_records_no_method (st : Store) (did method : String) (e : Entry)
    (hf : st.fetch_record did = some e)
    (hq : st.fetch_record (toQualified did method) = none) :
    (∃ st',
      Did.qualify st did method = (st', Except.ok (toQualified did method)) ∧
      st'.fetch_record (toQualified did method) =
        some ⟨toQualified did method, { e.value with did := toQualified did method }, e.tags⟩ ∧
      ({ e.value with did := toQualified did method } : DidInfo).method = e.value.method ∧
      ({ e.value with did := toQualified did method } : DidInfo).did =
        toQualified did method) ∧
    (∀ (st₀ st₀' : Store) (key : NewKey) (d : String) (meta : Option String) (m : String)
        (r : String × String),
      Did.create st₀ key (some d) meta (some m) = (st₀', Except.ok r) →
      st₀'.fetch_record r.1 =
        some ⟨toQualified d m, ⟨toQualified d m, key.verkey, KEY_TYPE, some m, meta, none⟩,
          create_tags key (some m)⟩ ∧
      ("method", m) ∈ create_tags key (some m)) := by
  constructor
  · have h1 := qualify_forward hf hq
    have hfq1 : ({ st with dids := st.dids.filter (fun x => x.name != did) } : Store).fetch_record
        (toQualified did method) = none :=
      (fetch_filter_ne (toQualified_ne did method)).trans hq
    refine ⟨_, h1, ?_, rfl, rfl⟩
    exact fetch_append_self ({ st with dids := st.dids.filter (fun x => x.name != did) })
      _ _ hfq1
  · intro st₀ st₀' key d meta m r h
    obtain ⟨hfd, hfq, hr, hst⟩ := create_some_ok_inv h
    simp only [final_did] at hst hfq hr
    constructor
    · rw [hr]
      simp only []
      rw [hst]
      exact fetch_append_self (Store.mk st₀.dids ((st₀.insert_key key.verkey).keys)) _ _ hfq
    · simp [create_tags]

/-- C7 (counterexample): the claim says every per-record copy failure (DID and
key records alike) is swallowed and the overall operation still succeeds.  But
in the key loop, `entry.load_local_key()?` (`tools/wallet/mod.rs:282`) propagates
a key-material load failure with `?`: a single key record that fails to load
aborts `copy_records` and the surrounding export returns that error. -/
theorem C7_counterexample :
    Wallet.copy_records [] [⟨"k", none, false⟩] (fun _ => true) (fun _ => true) =
      Except.error (CliError.other "Failed to load key k") ∧
    (Wallet.export_wallet [] [⟨"k", none, false⟩] (fun _ => true) (fun _ => true)).result =
      Except.error (CliError.other "Failed to load key k") := by
  decide

/-- C7 (amended): target-side insert failures are swallowed for both DID and key
records — the loops continue and `copy_records` succeeds, committing exactly the
records whose insert succeeded — provided every key record's material loads;
a key-material load failure is not swallowed but aborts the whole copy. -/
theorem C7_insert_failures_swallowed (did_entries : List Entry)
    (key_entries : List KeyEntry) (insert_ok insert_key_ok : String → Bool)
    (hload : ∀ k ∈ key_entries, k.load_ok = true) :
    Wallet.copy_records did_entries key_entries insert_ok insert_key_ok =
      Except.ok (did_entries.filter (fun e => insert_ok e.name),
        key_entries.filter (fun k => insert_key_ok k.name)) := by
  have hkeys : ∀ (ks : List KeyEntry), (∀ k ∈ ks, k.load_ok = true) →
      Wallet.copy_keys ks insert_key_ok =
        Except.ok (ks.filter (fun k => insert_key_ok k.name)) := by
    intro ks
    induction ks with
    | nil =>
      intro _
      rfl
    | cons k rest ih =>
      intro hl
      unfold Wallet.copy_keys
      rw [hl k (List.mem_cons_self k rest)]
      simp only [if_true]
      rw [ih (fun x hx => hl x (List.mem_cons_of_mem k hx)), List.filter_cons]
  unfold Wallet.copy_records
  rw [hkeys key_entries hload]
  rfl

/-- C8: the specification requires both stores opened by export/import to be
released on every exit path.  On the copy-failure path the `?` on
`copy_records` (`tools/wallet/mod.rs:169`, `244`) returns before the
`close()` calls (lines 171, 246-247), so the provisioned backup store (export)
and both the backup and the new store (import) are left open while the
operation reports the error; the target is also left uncommitted, confirming
commit happens only after all records are staged. -/
theorem C8_error_path_skips_close :
    (Wallet.export_wallet [] [⟨"k2", none, false⟩] (fun _ => true) (fun _ => true)).result =
      Except.error (CliError.other "Failed to load key k2") ∧
    (Wallet.export_wallet [] [⟨"k2", none, false⟩] (fun _ => true)
      (fun _ => true)).backup_store_closed = false ∧
    (Wallet.import_wallet [] [⟨"k2", none, false⟩] (fun _ => true) (fun _ => true)).result =
      Except.error (CliError.other "Failed to load key k2") ∧
    (Wallet.import_wallet [] [⟨"k2", none, false⟩] (fun _ => true)
      (fun _ => true)).backup_store_closed = false ∧
    (Wallet.import_wallet [] [⟨"k2", none, false⟩] (fun _ => true)
      (fun _ => true)).new_store_closed = false := by
  decide

/-! ### Witnesses: each claim theorem with hypotheses evaluated at a concrete input -/

theorem C1_start_then_apply_promotes_key_witness :
    (Store.mk [⟨"d", ⟨"d", "V", KEY_TYPE, none, none, none⟩, []⟩] ["V"]).fetch_record "d" =
      some ⟨"d", ⟨"d", "V", KEY_TYPE, none, none, none⟩, []⟩ ∧
    (∃ st1 st2 info,
      Did.replace_keys_start (Store.mk [⟨"d", ⟨"d", "V", KEY_TYPE, none, none, none⟩, []⟩] ["V"])
        "d" ⟨"W", "S"⟩ = (st1, Except.ok "W") ∧
      Did.replace_keys_apply st1 "d" = (st2, Except.ok ()) ∧
      Did.get st2 "d" = Except.ok info ∧
      info.verkey = "W" ∧
      info.next_verkey = none) :=
  ⟨by decide,
    C1_start_then_apply_promotes_key
      (Store.mk [⟨"d", ⟨"d", "V", KEY_TYPE, none, none, none⟩, []⟩] ["V"]) "d"
      ⟨"d", ⟨"d", "V", KEY_TYPE, none, none, none⟩, []⟩ ⟨"W", "S"⟩ (by decide) rfl⟩

theorem C2_next_verkey_lifecycle_witness :
    (Store.mk [⟨"d", ⟨"d", "V", KEY_TYPE, none, none, none⟩, []⟩] ["V"]).fetch_record "d" =
      some ⟨"d", ⟨"d", "V", KEY_TYPE, none, none, none⟩, []⟩ ∧
    Did.replace_keys_start (Store.mk [⟨"d", ⟨"d", "V", KEY_TYPE, none, none, none⟩, []⟩] ["V"])
        "d" ⟨"V", "S"⟩ =
      ((Did.replace_keys_start (Store.mk [⟨"d", ⟨"d", "V", KEY_TYPE, none, none, none⟩, []⟩] ["V"])
        "d" ⟨"V", "S"⟩).1, Except.ok "V") ∧
    ("V" = (NewKey.mk "V" "S").verkey ∧
      (Did.replace_keys_start (Store.mk [⟨"d", ⟨"d", "V", KEY_TYPE, none, none, none⟩, []⟩] ["V"])
        "d" ⟨"V", "S"⟩).1.fetch_record "d" =
        some ⟨"d", ⟨"d", "V", KEY_TYPE, none, none, some "V"⟩, []⟩) :=
  ⟨by decide, by decide,
    C2_next_verkey_lifecycle.2.2.1
      (Store.mk [⟨"d", ⟨"d", "V", KEY_TYPE, none, none, none⟩, []⟩] ["V"])
      ((Did.replace_keys_start (Store.mk [⟨"d", ⟨"d", "V", KEY_TYPE, none, none, none⟩, []⟩]
        ["V"]) "d" ⟨"V", "S"⟩).1)
      "d" "V" ⟨"V", "S"⟩
      ⟨"d", ⟨"d", "V", KEY_TYPE, none, none, none⟩, []⟩ (by decide) (by decide)⟩

theorem C3_create_fresh_and_duplicate_witness :
    (Store.mk [] [] : Store).fetch_record "x" = none ∧
    (Store.mk [] [] : Store).fetch_record (final_did "x" (some "indy")) = none ∧
    (Did.create (Store.mk [] []) ⟨"W", "S"⟩ (some "x") none (some "indy")).2 =
      Except.ok (final_did "x" (some "indy"), "W") ∧
    hasDuplicateErr
      (Did.create (Did.create (Store.mk [] []) ⟨"W", "S"⟩ (some "x") none none).1
        ⟨"W2", "S2"⟩ (some "x") none none).2 = true :=
  ⟨by decide, by decide,
    C3_create_fresh_and_duplicate.1 (Store.mk [] []) ⟨"W", "S"⟩ "x" none (some "indy")
      (by decide) (by decide),
    C3_create_fresh_and_duplicate.2 (Store.mk [] [])
      (Did.create (Store.mk [] []) ⟨"W", "S"⟩ (some "x") none none).1
      ⟨"W", "S"⟩ ⟨"W2", "S2"⟩ "x" none none none ("x", "W") (by decide)⟩

theorem C4_apply_without_start_fails_witness :
    (Store.mk [⟨"d", ⟨"d", "V", KEY_TYPE, none, none, none⟩, []⟩] ["V"]).fetch_record "d" =
      some ⟨"d", ⟨"d", "V", KEY_TYPE, none, none, none⟩, []⟩ ∧
    Did.replace_keys_apply (Store.mk [⟨"d", ⟨"d", "V", KEY_TYPE, none, none, none⟩, []⟩] ["V"])
        "d" =
      (Store.mk [⟨"d", ⟨"d", "V", KEY_TYPE, none, none, none⟩, []⟩] ["V"],
        Except.error (CliError.invalidEntityState "Next key is not set for the DID d.")) :=
  ⟨by decide,
    C4_apply_without_start_fails
      (Store.mk [⟨"d", ⟨"d", "V", KEY_TYPE, none, none, none⟩, []⟩] ["V"]) "d"
      ⟨"d", ⟨"d", "V", KEY_TYPE, none, none, none⟩, []⟩ (by decide) rfl⟩

theorem C5_set_metadata_frame_witness :
    (Store.mk [⟨"d", ⟨"d", "V", KEY_TYPE, none, none, some "N"⟩, []⟩] []).fetch_record "d" =
      some ⟨"d", ⟨"d", "V", KEY_TYPE, none, none, some "N"⟩, []⟩ ∧
    (⟨"d", "V", KEY_TYPE, none, none, some "N"⟩ : DidInfo).next_verkey = some "N" ∧
    (∃ st',
      Did.set_metadata (Store.mk [⟨"d", ⟨"d", "V", KEY_TYPE, none, none, some "N"⟩, []⟩] [])
        "d" "M" = (st', Except.ok ()) ∧
      st'.fetch_record "d" = some ⟨"d", ⟨"d", "V", KEY_TYPE, none, some "M", some "N"⟩, []⟩ ∧
      (⟨"d", "V", KEY_TYPE, none, some "M", some "N"⟩ : DidInfo).verkey = "V" ∧
      (⟨"d", "V", KEY_TYPE, none, some "M", some "N"⟩ : DidInfo).next_verkey = some "N" ∧
      (⟨"d", "V", KEY_TYPE, none, some "M", some "N"⟩ : DidInfo).verkey_type = KEY_TYPE ∧
      (⟨"d", "V", KEY_TYPE, none, some "M", some "N"⟩ : DidInfo).method = none ∧
      (∀ n, n ≠ "d" →
        st'.fetch_record n =
          (Store.mk [⟨"d", ⟨"d", "V", KEY_TYPE, none, none, some "N"⟩, []⟩] []).fetch_record n) ∧
      st'.keys = ([] : List String)) :=
  ⟨by decide, rfl,
    C5_set_metadata_frame (Store.mk [⟨"d", ⟨"d", "V", KEY_TYPE, none, none, some "N"⟩, []⟩] [])
      "d" "M" "N" ⟨"d", ⟨"d", "V", KEY_TYPE, none, none, some "N"⟩, []⟩ (by decide) rfl rfl⟩

theorem C6_qualify_moves_record_witness :
    (Store.mk [⟨"d", ⟨"d", "V", KEY_TYPE, none, none, none⟩, []⟩] []).fetch_record "d" =
      some ⟨"d", ⟨"d", "V", KEY_TYPE, none, none, none⟩, []⟩ ∧
    (Store.mk [⟨"d", ⟨"d", "V", KEY_TYPE, none, none, none⟩, []⟩] []).fetch_record
      "did:indy:d" = none ∧
    (∃ st',
      Did.qualify (Store.mk [⟨"d", ⟨"d", "V", KEY_TYPE, none, none, none⟩, []⟩] []) "d" "indy" =
        (st', Except.ok "did:indy:d") ∧
      Did.get st' "did:indy:d" =
        Except.ok (⟨"did:indy:d", "V", KEY_TYPE, none, none, none⟩ : DidInfo) ∧
      st'.fetch_record "did:indy:d" =
        some ⟨"did:indy:d", ⟨"did:indy:d", "V", KEY_TYPE, none, none, none⟩, []⟩ ∧
      (⟨"did:indy:d", "V", KEY_TYPE, none, none, none⟩ : DidInfo).verkey = "V" ∧
      (⟨"did:indy:d", "V", KEY_TYPE, none, none, none⟩ : DidInfo).next_verkey = none ∧
      (⟨"did:indy:d", "V", KEY_TYPE, none, none, none⟩ : DidInfo).metadata = none ∧
      Did.get st' "d" =
        Except.error (CliError.notFound "DID d does not exits in the wallet.")) :=
  ⟨by decide, by decide,
    C6_qualify_moves_record (Store.mk [⟨"d", ⟨"d", "V", KEY_TYPE, none, none, none⟩, []⟩] [])
      "d" "indy" ⟨"d", ⟨"d", "V", KEY_TYPE, none, none, none⟩, []⟩ (by decide) (by decide)⟩

theorem C7_insert_failures_swallowed_witness :
    (∀ k ∈ ([⟨"a", none, true⟩] : List KeyEntry), k.load_ok = true) ∧
    Wallet.copy_records [⟨"r", ⟨"r", "V", KEY_TYPE, none, none, none⟩, []⟩]
      [⟨"a", none, true⟩] (fun _ => false) (fun _ => false) =
      Except.ok ([], []) :=
  ⟨by decide,
    C7_insert_failures_swallowed [⟨"r", ⟨"r", "V", KEY_TYPE, none, none, none⟩, []⟩]
      [⟨"a", none, true⟩] (fun _ => false) (fun _ => false) (by decide)⟩

theorem C9_duplicate_create_persists_key_witness :
    (Store.mk [⟨"d", ⟨"d", "V", KEY_TYPE, none, none, none⟩, []⟩] []).fetch_record "d" =
      some ⟨"d", ⟨"d", "V", KEY_TYPE, none, none, none⟩, []⟩ ∧
    ([] : List String).contains "W" = false ∧
    (Did.create (Store.mk [⟨"d", ⟨"d", "V", KEY_TYPE, none, none, none⟩, []⟩] [])
        ⟨"W", "S"⟩ (some "d") none none =
      (Store.mk [⟨"d", ⟨"d", "V", KEY_TYPE, none, none, none⟩, []⟩] ["W"],
        Except.error (CliError.duplicate "DID already exits in the wallet")) ∧
      Store.mk [⟨"d", ⟨"d", "V", KEY_TYPE, none, none, none⟩, []⟩] ["W"] ≠
        Store.mk [⟨"d", ⟨"d", "V", KEY_TYPE, none, none, none⟩, []⟩] []) :=
  ⟨by decide, by decide,
    C9_duplicate_create_persists_key
      (Store.mk [⟨"d", ⟨"d", "V", KEY_TYPE, none, none, none⟩, []⟩] []) "d"
      ⟨"d", ⟨"d", "V", KEY_TYPE, none, none, none⟩, []⟩ ⟨"W", "S"⟩ none none
      (by decide) (by decide)⟩

theorem C10_qualify_records_no_method_witness :
    (Store.mk [⟨"d", ⟨"d", "V", KEY_TYPE, some "old", none, none⟩, []⟩] []).fetch_record "d" =
      some ⟨"d", ⟨"d", "V", KEY_TYPE, some "old", none, none⟩, []⟩ ∧
    (Store.mk [⟨"d", ⟨"d", "V", KEY_TYPE, some "old", none, none⟩, []⟩] []).fetch_record
      "did:indy:d" = none ∧
    ((∃ st',
      Did.qualify (Store.mk [⟨"d", ⟨"d", "V", KEY_TYPE, some "old", none, none⟩, []⟩] [])
        "d" "indy" = (st', Except.ok "did:indy:d") ∧
      st'.fetch_record "did:indy:d" =
        some ⟨"did:indy:d", ⟨"did:indy:d", "V", KEY_TYPE, some "old", none, none⟩, []⟩ ∧
      (⟨"did:indy:d", "V", KEY_TYPE, some "old", none, none⟩ : DidInfo).method = some "old" ∧
      (⟨"did:indy:d", "V", KEY_TYPE, some "old", none, none⟩ : DidInfo).did = "did:indy:d") ∧
    (∀ (st₀ st₀' : Store) (key : NewKey) (d : String) (meta : Option String) (m : String)
        (r : String × String),
      Did.create st₀ key (some d) meta (some m) = (st₀', Except.ok r) →
      st₀'.fetch_record r.1 =
        some ⟨toQualified d m, ⟨toQualified d m, key.verkey, KEY_TYPE, some m, meta, none⟩,
          create_tags key (some m)⟩ ∧
      ("method", m) ∈ create_tags key (some m))) :=
  ⟨by decide, by decide,
    C10_qualify_records_no_method
      (Store.mk [⟨"d", ⟨"d", "V", KEY_TYPE, some "old", none, none⟩, []⟩] []) "d" "indy"
      ⟨"d", ⟨"d", "V", KEY_TYPE, some "old", none, none⟩, []⟩ (by decide) (by decide)⟩

end IndyCli
